import Mathlib

/-!
Shallow embedding of the gtn-downloader scripts
(`src/bin/data-library-download.py`, `src/bin/api_upload.py`):
a local filesystem is a finite map from path to byte count, the network
is an oracle giving the outcome of each HTTP attempt, and the remote
object store is a list of (parent, name, fileId, content) entries.
-/

namespace GtnDownloader

/-- Local filesystem: association list from path to file size in bytes.
`os.path.exists p` is `(fsLookup fs p).isSome`,
`os.path.getsize p` is the looked-up value. -/
abbrev FS := List (String × Nat)

/-- Look a path up in the filesystem. -/
def fsLookup (fs : FS) (p : String) : Option Nat :=
  (fs.find? (fun e => e.1 == p)).map (fun e => e.2)

/-- Create or overwrite the file at `p` with `n` bytes
(`open(p, "wb")` followed by writes totalling `n`). -/
def fsSet (fs : FS) (p : String) (n : Nat) : FS :=
  (p, n) :: fs.filter (fun e => e.1 != p)

/-- Delete the file at `p` (`os.remove`). -/
def fsRemove (fs : FS) (p : String) : FS :=
  fs.filter (fun e => e.1 != p)

theorem fsLookup_fsSet_self (fs : FS) (p : String) (n : Nat) :
    fsLookup (fsSet fs p n) p = some n := by
  simp [fsLookup, fsSet, List.find?]

theorem fsLookup_fsRemove_self (fs : FS) (p : String) :
    fsLookup (fsRemove fs p) p = none := by
  have h : List.find? (fun e => e.1 == p) (fsRemove fs p) = none := by
    rw [List.find?_eq_none]
    intro x hx
    have h2 := (List.mem_filter.mp hx).2
    simp only [bne_iff_ne, ne_eq] at h2
    simp [h2]
  simp [fsLookup, h]

theorem fsLookup_fsRemove_ne (fs : FS) (p q : String) (h : q ≠ p) :
    fsLookup (fsRemove fs p) q = fsLookup fs q := by
  induction fs with
  | nil => rfl
  | cons e t ih =>
    simp only [fsRemove, List.filter_cons] at ih ⊢
    by_cases he : e.1 = p
    · have hq2 : (e.1 == q) = false := by
        simp only [beq_eq_false_iff_ne, ne_eq, he]
        exact fun hx => h hx.symm
      simp only [he, bne_self_eq_false, Bool.false_eq_true, if_false]
      rw [ih]
      simp [fsLookup, List.find?_cons, hq2]
    · have hne : (e.1 != p) = true := bne_iff_ne.mpr he
      simp only [hne, if_true]
      by_cases hq : e.1 = q
      · have hq2 : (e.1 == q) = true := by simp [hq]
        simp [fsLookup, List.find?_cons, hq2]
      · have hq2 : (e.1 == q) = false := by simp [hq]
        simp only [fsLookup] at ih
        simpa [fsLookup, List.find?_cons, hq2] using ih

/-- Outcome of one HTTP GET attempt, as seen by the client:
a connection-level failure before any response, a response whose body
is delivered in full as a list of chunk sizes, or a response whose body
read fails midway after the listed chunks were received
(`IncompleteRead`). -/
inductive HttpAttempt where
  | connFail : HttpAttempt
  | response (code : Nat) (chunks : List Nat) : HttpAttempt
  | truncated (code : Nat) (received : List Nat) : HttpAttempt
deriving DecidableEq

/-- Whether the attempt completes without raising:
`response.raise_for_status()` raises for status codes >= 400, a
connection failure or truncated body read raises as well. -/
def HttpAttempt.ok : HttpAttempt → Bool
  | .response code _ => code < 400
  | _ => false

/-- Total byte count delivered by a fully received body. -/
def HttpAttempt.bytes : HttpAttempt → Nat
  | .response _ chunks => chunks.foldl (fun a b => a + b) 0
  | _ => 0

/-- Status component of the (status, size) pair the download helpers
return: `"Downloaded"`, `"Download skipped (File already exists)"`, or
the `"Error downloading file from ..."` string. -/
inductive DlStatus where
  | downloaded : DlStatus
  | skipped : DlStatus
  | error : DlStatus
deriving DecidableEq

/-- Result of a `safe_download_http` call: the returned (status, size)
pair, the filesystem afterwards, the `time.sleep` delays performed (in
order), and how many attempts were made. -/
structure DlResult where
  status : DlStatus
  size : Nat
  fs : FS
  sleeps : List Nat
  attemptsMade : Nat
deriving DecidableEq

/-- Loop body of `safe_download_http` (data-library-download.py lines
27-65): `k` attempts have already failed, `net` lists the outcomes of
the remaining allowed attempts, `sleeps` accumulates delays in reverse.
On a successful attempt the chunks are streamed to `tmp` and the file is
then moved onto `dest` (`shutil.move`); on a failing attempt whatever
was written to `tmp` is removed (`os.remove` guarded by
`os.path.exists`) and the loop sleeps `backoff * (attempt + 1)`. -/
def safeDownloadGo (tmp dest : String) (backoff : Nat) :
    Nat → List HttpAttempt → FS → List Nat → DlResult
  | k, [], fs, sleeps => ⟨.error, 0, fs, sleeps.reverse, k⟩
  | k, a :: rest, fs, sleeps =>
    if a.ok then
      let n := a.bytes
      ⟨.downloaded, n, fsSet (fsRemove (fsSet fs tmp n) tmp) dest n,
        sleeps.reverse, k + 1⟩
    else
      safeDownloadGo tmp dest backoff (k + 1) rest (fsRemove fs tmp)
        (backoff * (k + 1) :: sleeps)

/-- Model of `safe_download_http(download_url, dest_path, retries,
backoff)` in data-library-download.py lines 14-65. The temp path is
`/workspace/tmp/<basename dest>`; here it is passed explicitly as
`tmp`. The network oracle `net` gives the outcome of each attempt; at
most `retries` attempts are consumed. -/
def safe_download_http (tmp dest : String) (retries backoff : Nat)
    (net : List HttpAttempt) (fs : FS) : DlResult :=
  safeDownloadGo tmp dest backoff 0 (net.take retries) fs []

/-- Result of a `download_http` call in api_upload.py: either the
function returns (with `some dest` on success, `none` on a 403/404
skip), or an exception escapes it. -/
inductive HttpDlOutcome where
  | ret (path : Option String) : HttpDlOutcome
  | raised : HttpDlOutcome
deriving DecidableEq

/-- Model of `download_http(download_url, dest_path)` in api_upload.py
lines 141-160. Status 403/404 returns `None` before the file is
opened; any other successful status streams the chunks directly into
`dest_path` (no temp staging); `raise_for_status` and a truncated body
read raise, and a truncated read leaves the partially written file at
`dest_path`. -/
def download_http (dest : String) (att : HttpAttempt) (fs : FS) :
    HttpDlOutcome × FS :=
  match att with
  | .connFail => (.raised, fs)
  | .response code chunks =>
    if code = 403 ∨ code = 404 then (.ret none, fs)
    else if code < 400 then
      (.ret (some dest), fsSet fs dest (chunks.foldl (fun a b => a + b) 0))
    else (.raised, fs)
  | .truncated code received =>
    if code = 403 ∨ code = 404 then (.ret none, fs)
    else if code < 400 then
      (.raised, fsSet fs dest (received.foldl (fun a b => a + b) 0))
    else (.raised, fs)

/-- Result of processing one url entry in `process_urls`. -/
structure ProcResult where
  status : DlStatus
  size : Nat
  fs : FS
  netAttempts : Nat
deriving DecidableEq

/-- Per-entry logic of `process_urls` (data-library-download.py lines
140-147) for an HTTP url, with the destination filename already
computed: if the destination exists with non-zero size the download is
skipped with the existing size and no network access; otherwise
`safe_download_http` runs. -/
def process_url_entry (tmp dest : String) (retries backoff : Nat)
    (net : List HttpAttempt) (fs : FS) : ProcResult :=
  if 0 < (fsLookup fs dest).getD 0 then
    ⟨.skipped, (fsLookup fs dest).getD 0, fs, 0⟩
  else
    let r := safe_download_http tmp dest retries backoff net fs
    ⟨r.status, r.size, r.fs, r.attemptsMade⟩

theorem safeDownloadGo_fail_step (tmp dest : String) (backoff : Nat)
    (a : HttpAttempt) (ha : a.ok = false) (k : Nat) (rest : List HttpAttempt)
    (fs : FS) (sleeps : List Nat) :
    safeDownloadGo tmp dest backoff k (a :: rest) fs sleeps =
      safeDownloadGo tmp dest backoff (k + 1) rest (fsRemove fs tmp)
        (backoff * (k + 1) :: sleeps) := by
  simp [safeDownloadGo, ha]

theorem safeDownloadGo_ok_step (tmp dest : String) (backoff : Nat)
    (a : HttpAttempt) (ha : a.ok = true) (k : Nat) (rest : List HttpAttempt)
    (fs : FS) (sleeps : List Nat) :
    safeDownloadGo tmp dest backoff k (a :: rest) fs sleeps =
      ⟨.downloaded, a.bytes, fsSet (fsRemove (fsSet fs tmp a.bytes) tmp) dest a.bytes,
        sleeps.reverse, k + 1⟩ := by
  simp [safeDownloadGo, ha]

theorem safeDownloadGo_attempts_le (tmp dest : String) (backoff : Nat) :
    ∀ (l : List HttpAttempt) (k : Nat) (fs : FS) (sleeps : List Nat),
    (safeDownloadGo tmp dest backoff k l fs sleeps).attemptsMade ≤ k + l.length := by
  intro l
  induction l with
  | nil => intro k fs sleeps; simp [safeDownloadGo]
  | cons a rest ih =>
    intro k fs sleeps
    by_cases ha : a.ok = true
    · rw [safeDownloadGo_ok_step tmp dest backoff a ha k rest fs sleeps]
      simp only [List.length_cons]
      omega
    · have ha' : a.ok = false := by revert ha; cases a.ok <;> simp
      rw [safeDownloadGo_fail_step tmp dest backoff a ha' k rest fs sleeps]
      have := ih (k + 1) (fsRemove fs tmp) (backoff * (k + 1) :: sleeps)
      simp only [List.length_cons]
      omega

theorem safeDownloadGo_all_fail (tmp dest : String) (backoff : Nat) :
    ∀ (l : List HttpAttempt), (∀ a ∈ l, a.ok = false) →
    ∀ (k : Nat) (fs : FS) (sleeps : List Nat),
    (safeDownloadGo tmp dest backoff k l fs sleeps).status = DlStatus.error ∧
    (safeDownloadGo tmp dest backoff k l fs sleeps).attemptsMade = k + l.length := by
  intro l
  induction l with
  | nil => intro _ k fs sleeps; exact ⟨rfl, by simp [safeDownloadGo]⟩
  | cons a rest ih =>
    intro hl k fs sleeps
    have ha : a.ok = false := hl a (List.mem_cons_self a rest)
    have hrest : ∀ b ∈ rest, b.ok = false := fun b hb => hl b (List.mem_cons_of_mem a hb)
    rw [safeDownloadGo_fail_step tmp dest backoff a ha k rest fs sleeps]
    obtain ⟨h1, h2⟩ := ih hrest (k + 1) (fsRemove fs tmp) (backoff * (k + 1) :: sleeps)
    refine ⟨h1, ?_⟩
    rw [h2]
    simp only [List.length_cons]
    omega

theorem safeDownloadGo_fail_run (tmp dest : String) (backoff : Nat)
    (s : HttpAttempt) (hs : s.ok = true) :
    ∀ (l : List HttpAttempt), (∀ a ∈ l, a.ok = false) →
    ∀ (k : Nat) (fs : FS) (sleeps : List Nat),
    (safeDownloadGo tmp dest backoff k (l ++ [s]) fs sleeps).status = DlStatus.downloaded ∧
    (safeDownloadGo tmp dest backoff k (l ++ [s]) fs sleeps).size = s.bytes ∧
    (safeDownloadGo tmp dest backoff k (l ++ [s]) fs sleeps).attemptsMade = k + l.length + 1 ∧
    (safeDownloadGo tmp dest backoff k (l ++ [s]) fs sleeps).sleeps =
      sleeps.reverse ++ (List.range l.length).map (fun i => backoff * (k + i + 1)) := by
  intro l
  induction l with
  | nil =>
    intro _ k fs sleeps
    rw [List.nil_append, safeDownloadGo_ok_step tmp dest backoff s hs k [] fs sleeps]
    exact ⟨rfl, rfl, rfl, by simp⟩
  | cons a rest ih =>
    intro hl k fs sleeps
    have ha : a.ok = false := hl a (List.mem_cons_self a rest)
    have hrest : ∀ b ∈ rest, b.ok = false := fun b hb => hl b (List.mem_cons_of_mem a hb)
    rw [List.cons_append,
      safeDownloadGo_fail_step tmp dest backoff a ha k (rest ++ [s]) fs sleeps]
    obtain ⟨h1, h2, h3, h4⟩ := ih hrest (k + 1) (fsRemove fs tmp) (backoff * (k + 1) :: sleeps)
    refine ⟨h1, h2, ?_, ?_⟩
    · rw [h3]; simp only [List.length_cons]; omega
    · rw [h4, List.reverse_cons, List.append_assoc, List.singleton_append]
      congr 1
      rw [List.length_cons, List.range_succ_eq_map, List.map_cons, List.map_map]
      congr 1
      apply List.map_congr_left
      intro i _
      simp only [Function.comp_apply]
      congr 1
      omega

theorem safeDownloadGo_dest (tmp dest : String) (backoff : Nat) (hne : tmp ≠ dest) :
    ∀ (l : List HttpAttempt) (k : Nat) (fs : FS) (sleeps : List Nat),
    fsLookup fs dest = none →
    ((safeDownloadGo tmp dest backoff k l fs sleeps).status = DlStatus.downloaded ∧
      fsLookup (safeDownloadGo tmp dest backoff k l fs sleeps).fs dest =
        some (safeDownloadGo tmp dest backoff k l fs sleeps).size) ∨
    ((safeDownloadGo tmp dest backoff k l fs sleeps).status = DlStatus.error ∧
      fsLookup (safeDownloadGo tmp dest backoff k l fs sleeps).fs dest = none) := by
  intro l
  induction l with
  | nil => intro k fs sleeps hfs; right; exact ⟨rfl, hfs⟩
  | cons a rest ih =>
    intro k fs sleeps hfs
    by_cases ha : a.ok = true
    · left
      rw [safeDownloadGo_ok_step tmp dest backoff a ha k rest fs sleeps]
      exact ⟨rfl, fsLookup_fsSet_self _ dest a.bytes⟩
    · have ha' : a.ok = false := by revert ha; cases a.ok <;> simp
      rw [safeDownloadGo_fail_step tmp dest backoff a ha' k rest fs sleeps]
      refine ih (k + 1) (fsRemove fs tmp) _ ?_
      rw [fsLookup_fsRemove_ne fs tmp dest (fun hx => hne hx.symm)]
      exact hfs

theorem safeDownloadGo_downloaded_lookup (tmp dest : String) (backoff : Nat) :
    ∀ (l : List HttpAttempt) (k : Nat) (fs : FS) (sleeps : List Nat),
    (safeDownloadGo tmp dest backoff k l fs sleeps).status = DlStatus.downloaded →
    fsLookup (safeDownloadGo tmp dest backoff k l fs sleeps).fs dest =
      some (safeDownloadGo tmp dest backoff k l fs sleeps).size := by
  intro l
  induction l with
  | nil => intro k fs sleeps h; exact absurd h (by simp [safeDownloadGo])
  | cons a rest ih =>
    intro k fs sleeps h
    by_cases ha : a.ok = true
    · rw [safeDownloadGo_ok_step tmp dest backoff a ha k rest fs sleeps]
      exact fsLookup_fsSet_self _ dest a.bytes
    · have ha' : a.ok = false := by revert ha; cases a.ok <;> simp
      rw [safeDownloadGo_fail_step tmp dest backoff a ha' k rest fs sleeps] at h ⊢
      exact ih _ _ _ h

theorem safe_download_http_downloaded_lookup (tmp dest : String) (retries backoff : Nat)
    (net : List HttpAttempt) (fs : FS)
    (h : (safe_download_http tmp dest retries backoff net fs).status = DlStatus.downloaded) :
    fsLookup (safe_download_http tmp dest retries backoff net fs).fs dest =
      some (safe_download_http tmp dest retries backoff net fs).size :=
  safeDownloadGo_downloaded_lookup tmp dest backoff (net.take retries) 0 fs [] h

/-- C1, counterexample: the claim quantifies over every call of the
transfer engine, including `download_http` in api_upload.py, which
streams straight into `dest_path` with no temp staging. On a truncated
body read after 12 bytes the call raises and leaves a 12-byte partial
file observable at the destination path, contradicting "destPath either
does not exist (failure) or exists with exactly the fully-transferred
byte count". -/
theorem c1_counterexample :
    (download_http "f" (HttpAttempt.truncated 200 [5, 7]) []).1 = HttpDlOutcome.raised ∧
    fsLookup (download_http "f" (HttpAttempt.truncated 200 [5, 7]) []).2 "f" = some 12 := by
  exact ⟨rfl, rfl⟩

/-- C1, amended: for the safe variant `safe_download_http`
(data-library-download.py), which stages to a temp file and moves it
into place only after the full body is received, the destination path
is never partial: starting from a state where `dest` is absent and with
`tmp` distinct from `dest`, after the call either the status is
Downloaded and `dest` holds exactly the transferred byte count, or the
status is Error and `dest` still does not exist. -/
theorem c1_safe_download_no_partial (tmp dest : String) (retries backoff : Nat)
    (net : List HttpAttempt) (fs : FS) (hne : tmp ≠ dest)
    (hfs : fsLookup fs dest = none) :
    ((safe_download_http tmp dest retries backoff net fs).status = DlStatus.downloaded ∧
      fsLookup (safe_download_http tmp dest retries backoff net fs).fs dest =
        some (safe_download_http tmp dest retries backoff net fs).size) ∨
    ((safe_download_http tmp dest retries backoff net fs).status = DlStatus.error ∧
      fsLookup (safe_download_http tmp dest retries backoff net fs).fs dest = none) :=
  safeDownloadGo_dest tmp dest backoff hne (net.take retries) 0 fs [] hfs

/-- C1, witness: the amended theorem applied at a concrete successful
single-attempt download. -/
theorem c1_safe_download_no_partial_witness :
    ((safe_download_http "t" "d" 3 1 [HttpAttempt.response 200 [4]] []).status =
        DlStatus.downloaded ∧
      fsLookup (safe_download_http "t" "d" 3 1 [HttpAttempt.response 200 [4]] []).fs "d" =
        some (safe_download_http "t" "d" 3 1 [HttpAttempt.response 200 [4]] []).size) ∨
    ((safe_download_http "t" "d" 3 1 [HttpAttempt.response 200 [4]] []).status =
        DlStatus.error ∧
      fsLookup (safe_download_http "t" "d" 3 1 [HttpAttempt.response 200 [4]] []).fs "d" =
        none) :=
  c1_safe_download_no_partial "t" "d" 3 1 [HttpAttempt.response 200 [4]] []
    (by decide) (by decide)

/-- C2, counterexample: a first run whose download succeeds with an
empty body leaves a zero-byte file at the destination; the second run
on the same (url, destPath) then performs network I/O again (one more
attempt) and does not return the skipped status, contradicting
"running fetch twice in a row ... performs network I/O at most once,
and the second run returns the skipped status". -/
theorem c2_counterexample :
    (process_url_entry "t" "d" 3 10 [HttpAttempt.response 200 []] []).status =
        DlStatus.downloaded ∧
    (process_url_entry "t" "d" 3 10 [HttpAttempt.response 200 []]
        (process_url_entry "t" "d" 3 10 [HttpAttempt.response 200 []] []).fs).netAttempts =
      1 ∧
    (process_url_entry "t" "d" 3 10 [HttpAttempt.response 200 []]
        (process_url_entry "t" "d" 3 10 [HttpAttempt.response 200 []] []).fs).status ≠
      DlStatus.skipped := by
  refine ⟨rfl, rfl, ?_⟩
  decide

/-- C2, amended: if destPath exists with non-zero size the engine
returns the skipped status with the existing size and performs no
network access; consequently, if the first run finishes Downloaded with
a non-zero byte count, the second run on the same destination returns
the skipped status with that size, does not touch the filesystem and
performs no network access. -/
theorem c2_skip_idempotent :
    (∀ (tmp dest : String) (retries backoff : Nat) (net : List HttpAttempt)
        (fs : FS) (n : Nat), fsLookup fs dest = some n → 0 < n →
        process_url_entry tmp dest retries backoff net fs = ⟨.skipped, n, fs, 0⟩) ∧
    (∀ (tmp dest : String) (retries backoff : Nat) (net net2 : List HttpAttempt) (fs : FS),
        (process_url_entry tmp dest retries backoff net fs).status = DlStatus.downloaded →
        0 < (process_url_entry tmp dest retries backoff net fs).size →
        process_url_entry tmp dest retries backoff net2
            (process_url_entry tmp dest retries backoff net fs).fs =
          ⟨.skipped, (process_url_entry tmp dest retries backoff net fs).size,
            (process_url_entry tmp dest retries backoff net fs).fs, 0⟩) := by
  constructor
  · intro tmp dest retries backoff net fs n h1 h2
    unfold process_url_entry
    rw [h1]
    simp [h2]
  · intro tmp dest retries backoff net net2 fs h1 h2
    have hE : process_url_entry tmp dest retries backoff net fs =
        ⟨(safe_download_http tmp dest retries backoff net fs).status,
          (safe_download_http tmp dest retries backoff net fs).size,
          (safe_download_http tmp dest retries backoff net fs).fs,
          (safe_download_http tmp dest retries backoff net fs).attemptsMade⟩ := by
      unfold process_url_entry at h1 ⊢
      by_cases hn : 0 < (fsLookup fs dest).getD 0
      · rw [if_pos hn] at h1
        simp at h1
      · rw [if_neg hn]
    rw [hE] at h1 h2 ⊢
    simp only at h1 h2 ⊢
    have hlook := safe_download_http_downloaded_lookup tmp dest retries backoff net fs h1
    unfold process_url_entry
    rw [hlook]
    simp [h2]

/-- C2, witness: the amended theorem's first part applied at a state
where the destination already holds five bytes. -/
theorem c2_skip_idempotent_witness :
    process_url_entry "t" "d" 3 1 [] [("d", 5)] =
      ⟨DlStatus.skipped, 5, [("d", 5)], 0⟩ :=
  c2_skip_idempotent.1 "t" "d" 3 1 [] [("d", 5)] 5 (by decide) (by decide)

/-- C3: on each failing attempt the temp file is removed and the loop
sleeps backoff times the 1-based attempt number before retrying; at
most `retries` attempts are made; and N consecutive transport failures
followed by a success with retries = N+1 end with status Downloaded
after exactly N+1 attempts, with the recorded backoff delays
backoff*1, ..., backoff*N non-decreasing. -/
theorem c3_retry_backoff :
    (∀ (tmp dest : String) (backoff : Nat) (a : HttpAttempt) (k : Nat)
        (rest : List HttpAttempt) (fs : FS) (sleeps : List Nat), a.ok = false →
        safeDownloadGo tmp dest backoff k (a :: rest) fs sleeps =
          safeDownloadGo tmp dest backoff (k + 1) rest (fsRemove fs tmp)
            (backoff * (k + 1) :: sleeps)) ∧
    (∀ (tmp dest : String) (retries backoff : Nat) (net : List HttpAttempt) (fs : FS),
        (safe_download_http tmp dest retries backoff net fs).attemptsMade ≤ retries) ∧
    (∀ (tmp dest : String) (backoff : Nat) (fs : FS) (l : List HttpAttempt)
        (s : HttpAttempt), (∀ a ∈ l, a.ok = false) → s.ok = true →
        (safe_download_http tmp dest (l.length + 1) backoff (l ++ [s]) fs).status =
            DlStatus.downloaded ∧
        (safe_download_http tmp dest (l.length + 1) backoff (l ++ [s]) fs).attemptsMade =
            l.length + 1 ∧
        (safe_download_http tmp dest (l.length + 1) backoff (l ++ [s]) fs).sleeps =
            (List.range l.length).map (fun i => backoff * (i + 1)) ∧
        List.Pairwise (· ≤ ·)
          (safe_download_http tmp dest (l.length + 1) backoff (l ++ [s]) fs).sleeps) := by
  refine ⟨fun tmp dest backoff a k rest fs sleeps ha =>
    safeDownloadGo_fail_step tmp dest backoff a ha k rest fs sleeps, ?_, ?_⟩
  · intro tmp dest retries backoff net fs
    have h := safeDownloadGo_attempts_le tmp dest backoff (net.take retries) 0 fs []
    have h2 : (net.take retries).length ≤ retries := by
      rw [List.length_take]; omega
    unfold safe_download_http
    omega
  · intro tmp dest backoff fs l s hl hs
    have htake : (l ++ [s]).take (l.length + 1) = l ++ [s] := by
      have hlen : (l ++ [s]).length = l.length + 1 := by simp
      rw [← hlen, List.take_length]
    have hmain := safeDownloadGo_fail_run tmp dest backoff s hs l hl 0 fs []
    obtain ⟨h1, _, h3, h4⟩ := hmain
    have hsl : (safe_download_http tmp dest (l.length + 1) backoff (l ++ [s]) fs).sleeps =
        (List.range l.length).map (fun i => backoff * (i + 1)) := by
      unfold safe_download_http
      rw [htake, h4]
      simp only [List.reverse_nil, List.nil_append]
      apply List.map_congr_left
      intro i _
      congr 1
      omega
    refine ⟨?_, ?_, hsl, ?_⟩
    · unfold safe_download_http
      rw [htake]
      exact h1
    · unfold safe_download_http
      rw [htake, h3]
      omega
    · rw [hsl]
      refine List.Pairwise.map _ ?_ (List.pairwise_le_range l.length)
      intro a b hab
      exact Nat.mul_le_mul_left backoff (by omega)

/-- C3, witness: one connection failure followed by a success with
retries = 2 yields Downloaded after two attempts with a single backoff
delay of 7 seconds. -/
theorem c3_retry_backoff_witness :
    (safe_download_http "t" "d" ([HttpAttempt.connFail].length + 1) 7
        ([HttpAttempt.connFail] ++ [HttpAttempt.response 200 [5]]) []).status =
        DlStatus.downloaded ∧
    (safe_download_http "t" "d" ([HttpAttempt.connFail].length + 1) 7
        ([HttpAttempt.connFail] ++ [HttpAttempt.response 200 [5]]) []).attemptsMade =
        [HttpAttempt.connFail].length + 1 ∧
    (safe_download_http "t" "d" ([HttpAttempt.connFail].length + 1) 7
        ([HttpAttempt.connFail] ++ [HttpAttempt.response 200 [5]]) []).sleeps =
        (List.range [HttpAttempt.connFail].length).map (fun i => 7 * (i + 1)) ∧
    List.Pairwise (· ≤ ·)
      (safe_download_http "t" "d" ([HttpAttempt.connFail].length + 1) 7
        ([HttpAttempt.connFail] ++ [HttpAttempt.response 200 [5]]) []).sleeps :=
  c3_retry_backoff.2.2 "t" "d" 7 [] [HttpAttempt.connFail]
    (HttpAttempt.response 200 [5]) (by decide) (by decide)

/-- C4, counterexample: in `safe_download_http`
(data-library-download.py), `raise_for_status` turns a 404 response
into a retryable `RequestException`, so a URL that answers 404 on
every attempt is retried up to the full retry budget: three attempts
are made and three backoff sleeps performed, contradicting "performs
no further retry attempts for that URL". -/
theorem c4_counterexample :
    (safe_download_http "t" "d" 3 10
        [HttpAttempt.response 404 [], HttpAttempt.response 404 [],
          HttpAttempt.response 404 []] []).attemptsMade = 3 ∧
    (safe_download_http "t" "d" 3 10
        [HttpAttempt.response 404 [], HttpAttempt.response 404 [],
          HttpAttempt.response 404 []] []).status = DlStatus.error ∧
    (safe_download_http "t" "d" 3 10
        [HttpAttempt.response 404 [], HttpAttempt.response 404 [],
          HttpAttempt.response 404 []] []).sleeps = [10, 20, 30] := by
  exact ⟨rfl, rfl, rfl⟩

/-- C4, amended: only `download_http` in api_upload.py treats 403/404
as a terminal "not found" outcome, returning None without writing the
destination and without any retry; `safe_download_http` in
data-library-download.py instead treats 403/404 like any other
transport error and retries it on every allowed attempt, making
exactly `retries` attempts when every response is 403/404. -/
theorem c4_not_found_handling :
    (∀ (dest : String) (fs : FS) (code : Nat) (chunks : List Nat),
        code = 403 ∨ code = 404 →
        download_http dest (HttpAttempt.response code chunks) fs =
          (HttpDlOutcome.ret none, fs)) ∧
    (∀ (tmp dest : String) (n backoff : Nat) (fs : FS) (code : Nat) (chunks : List Nat),
        code = 403 ∨ code = 404 →
        (safe_download_http tmp dest n backoff
            (List.replicate n (HttpAttempt.response code chunks)) fs).status =
          DlStatus.error ∧
        (safe_download_http tmp dest n backoff
            (List.replicate n (HttpAttempt.response code chunks)) fs).attemptsMade = n) := by
  constructor
  · intro dest fs code chunks h
    rcases h with h | h <;> subst h <;> rfl
  · intro tmp dest n backoff fs code chunks h
    have hfail : ∀ a ∈ List.replicate n (HttpAttempt.response code chunks), a.ok = false := by
      intro a ha
      rw [List.eq_of_mem_replicate ha]
      rcases h with h | h <;> subst h <;> rfl
    have htake : (List.replicate n (HttpAttempt.response code chunks)).take n =
        List.replicate n (HttpAttempt.response code chunks) := by
      rw [List.take_replicate]
      simp
    have hmain := safeDownloadGo_all_fail tmp dest backoff _ hfail 0 fs []
    unfold safe_download_http
    rw [htake]
    refine ⟨hmain.1, ?_⟩
    rw [hmain.2]
    simp

/-- C4, witness: the amended theorem applied to a 404 answered twice
with a retry budget of two. -/
theorem c4_not_found_handling_witness :
    download_http "d" (HttpAttempt.response 404 [3]) [] = (HttpDlOutcome.ret none, []) ∧
    (safe_download_http "t" "d" 2 10
        (List.replicate 2 (HttpAttempt.response 404 [3])) []).status = DlStatus.error ∧
    (safe_download_http "t" "d" 2 10
        (List.replicate 2 (HttpAttempt.response 404 [3])) []).attemptsMade = 2 :=
  ⟨c4_not_found_handling.1 "d" [] 404 [3] (Or.inr rfl),
    (c4_not_found_handling.2 "t" "d" 2 10 [] 404 [3] (Or.inr rfl)).1,
    (c4_not_found_handling.2 "t" "d" 2 10 [] 404 [3] (Or.inr rfl)).2⟩

/-- The character class of the `re.sub` in `sanitize_name`
(data-library-download.py line 159 and api_upload.py line 24):
backslash, slash, colon, star, comma, question mark, double quote,
angle brackets, pipe, percent, dot, hash, bang, at, dollar, ampersand,
apostrophe, parentheses, square brackets, curly braces and space. -/
def forbiddenChars : List Char :=
  ['\\', '/', ':', '*', ',', '?', '\x22', '<', '>', '|', '%', '.', '#',
    '!', '@', '$', '&', '\x27', '(', ')', '[', ']', '\x7b', '\x7d', ' ']

/-- Model of `sanitize_name`: every character in the forbidden class is
replaced by a hyphen, all other characters are kept. -/
def sanitize_name (name : String) : String :=
  String.mk (name.data.map (fun c => if forbiddenChars.contains c then '-' else c))

/-- C9: the sanitizer is a pure per-character replacement, and its
output never contains a character of the forbidden set. -/
theorem c9_sanitize_no_forbidden (s : String) (c : Char)
    (h : c ∈ (sanitize_name s).data) : forbiddenChars.contains c = false := by
  simp only [sanitize_name, List.mem_map] at h
  obtain ⟨a, _, ha⟩ := h
  by_cases hc : forbiddenChars.contains a = true
  · rw [← ha, if_pos hc]
    decide
  · rw [← ha, if_neg hc]
    simpa using hc

/-- C9, witness: the theorem applied to the output character `a` of
sanitizing the string "a b". -/
theorem c9_sanitize_no_forbidden_witness : forbiddenChars.contains 'a' = false :=
  c9_sanitize_no_forbidden "a b" 'a' (by decide)

/-! Manifest parsing model. A YAML document is a tree of strings,
lists, string-keyed mappings and null; a manifest file either fails
`yaml.safe_load` or parses to such a tree. -/

/-- Parsed YAML value. -/
inductive Y where
  | str (s : String) : Y
  | list (items : List Y) : Y
  | map (entries : List (String × Y)) : Y
  | null : Y

/-- The Python exceptions the manifest-processing code can raise:
`yaml.YAMLError` from `safe_load`, `KeyError` from `data[k]` on a
missing key, `TypeError` from indexing or `re.sub` on a value of the
wrong type, `AttributeError` from `.get` on a non-dict. -/
inductive PErr where
  | yamlError : PErr
  | keyError : PErr
  | typeError : PErr
  | attributeError : PErr
deriving DecidableEq

/-- Python `data[k]`: mapping lookup; `KeyError` when the key is
missing, `TypeError` when the value is not a mapping. -/
def Y.item : Y → String → Except PErr Y
  | .map es, k =>
    match es.find? (fun e => e.1 == k) with
    | some e => .ok e.2
    | none => .error .keyError
  | _, _ => .error .typeError

/-- Python `data.get(k, d)`: mapping lookup with default;
`AttributeError` when the receiver is not a mapping. -/
def Y.getod : Y → String → Y → Except PErr Y
  | .map es, k, d =>
    match es.find? (fun e => e.1 == k) with
    | some e => .ok e.2
    | none => .ok d
  | _, _, _ => .error .attributeError

/-- Python `for x in v`: lists iterate their elements, dicts their
keys, strings their characters; iterating `None` raises `TypeError`. -/
def Y.iter : Y → Except PErr (List Y)
  | .list l => .ok l
  | .map es => .ok (es.map (fun e => Y.str e.1))
  | .str s => .ok (s.data.map (fun c => Y.str (String.mk [c])))
  | .null => .error .typeError

/-- Python `re.sub(pattern, "-", v)` on a manifest value: requires a
string, raises `TypeError` otherwise. -/
def Y.asStr : Y → Except PErr String
  | .str s => .ok s
  | _ => .error .typeError

/-- Python `str(v or "")` as used by api_upload.py's `sanitize_name`:
total, falsy values become the empty string. -/
def pyStr : Y → String
  | .str s => s
  | .null => ""
  | .list l => if l.isEmpty then "" else "pyobj"
  | .map es => if es.isEmpty then "" else "pyobj"

/-- `os.path.join` of two components. -/
def pathJoin (a b : String) : String := a ++ "/" ++ b

/-- One manifest file on disk: either `yaml.safe_load` raises on it, or
it parses to a YAML tree. -/
inductive ManifestFile where
  | invalid : ManifestFile
  | parsed (data : Y) : ManifestFile

/-- Model of `process_yaml(yaml_path, output_dir, summary_file)` in
data-library-download.py lines 184-212, tracking its control flow and
the sequence of directory paths handed to `process_urls`.
`yaml.safe_load`, `data["destination"]["name"]`, `data["items"]` and
the nested `name`/`items` accesses are modelled exactly (including the
`.get(..., default)` calls and their evaluation order); the download
side effects inside `process_urls` are not tracked here. There is no
try/except anywhere in this function or its caller: every parse or key
failure propagates as `Except.error`. -/
def process_yaml_dl (output_dir : String) (m : ManifestFile) :
    Except PErr (List String) :=
  match m with
  | .invalid => .error .yamlError
  | .parsed data => do
    let destObj ← data.item "destination"
    let destNameY ← destObj.item "name"
    let destNameS ← destNameY.asStr
    let destination_name := sanitize_name destNameS
    let topicsY ← data.item "items"
    let topics ← topicsY.iter
    topics.foldlM (fun acc topic => do
      let tY ← topic.item "name"
      let tS ← tY.asStr
      let topic_path := pathJoin (pathJoin output_dir destination_name) (sanitize_name tS)
      let _ ← topic.getod "items" (Y.list [])
      let acc := acc ++ [topic_path]
      let tutsY ← topic.item "items"
      let tutorials ← tutsY.iter
      tutorials.foldlM (fun acc tutorial => do
        let uY ← tutorial.item "name"
        let uS ← uY.asStr
        let tutorial_path := pathJoin topic_path (sanitize_name uS)
        let _ ← tutorial.getod "items" (Y.list [])
        let acc := acc ++ [tutorial_path]
        let doisY ← tutorial.getod "items" (Y.list [])
        let dois ← doisY.iter
        dois.foldlM (fun acc doi => do
          let dY ← doi.getod "name" (Y.str "")
          let dS ← dY.asStr
          let doi_path := pathJoin tutorial_path (sanitize_name dS)
          pure (acc ++ [doi_path])) acc) acc) []

/-- The manifest walk of the download variant (the `os.walk` loop over
data-library.yaml files, as in test-download.py lines 260-267 and the
original loop of data-library-download.py): manifests are processed in
order and there is no try/except around `process_yaml`, so the first
raising manifest aborts the remainder of the walk. -/
def walk_dl (output_dir : String) : List ManifestFile → Except PErr (List (List String))
  | [] => .ok []
  | m :: rest => do
    let r ← process_yaml_dl output_dir m
    let rs ← walk_dl output_dir rest
    pure (r :: rs)

/-- Model of `process_yaml(yaml_path, parent_id)` in api_upload.py
lines 217-231: `yaml.safe_load` failures are caught and the manifest is
skipped (`none`); otherwise `destination`/`name` are read with `.get`
defaults and the sanitized destination name is produced. The remote
`create_directory` call and the topic loops below the cited range are
not tracked here. -/
def process_yaml_ul (m : ManifestFile) : Except PErr (Option String) :=
  match m with
  | .invalid => .ok none
  | .parsed data => do
    let destObj ← data.getod "destination" (Y.map [])
    let destNameY ← destObj.getod "name" (Y.str "Unknown")
    pure (some (sanitize_name (pyStr destNameY)))

/-- The manifest walk of the upload variant (api_upload.py main loop
lines 280-284). -/
def walk_ul : List ManifestFile → Except PErr (List (Option String))
  | [] => .ok []
  | m :: rest => do
    let r ← process_yaml_ul m
    let rs ← walk_ul rest
    pure (r :: rs)

/-- C5, counterexample: a manifest that parses to an empty mapping
lacks the required destination key; in the download variant
`data["destination"]` raises `KeyError` with no handler, so the walk
over [badManifest, goodManifest] aborts with that error even though the
second manifest on its own processes fine — contradicting "only that
manifest is skipped; the walk is never aborted by a parse failure". -/
theorem c5_counterexample :
    walk_dl "out" [ManifestFile.parsed (Y.map []),
        ManifestFile.parsed (Y.map [("destination", Y.map [("name", Y.str "D")]),
          ("items", Y.list [])])] = Except.error PErr.keyError ∧
    process_yaml_dl "out"
        (ManifestFile.parsed (Y.map [("destination", Y.map [("name", Y.str "D")]),
          ("items", Y.list [])])) = Except.ok [] := by
  exact ⟨rfl, rfl⟩

/-- C5, amended: only the upload variant tolerates parse failures, and
only `yaml.safe_load` errors: an invalid-YAML manifest is logged and
skipped and the walk continues over the remaining manifests. In the
download variant any parse or required-key failure propagates and
aborts the walk at that manifest. -/
theorem c5_parse_failure_handling :
    (∀ (rest : List ManifestFile),
        walk_ul (ManifestFile.invalid :: rest) =
          (walk_ul rest).map (List.cons Option.none)) ∧
    (∀ (out : String) (m : ManifestFile) (e : PErr) (rest : List ManifestFile),
        process_yaml_dl out m = .error e →
        walk_dl out (m :: rest) = .error e) := by
  constructor
  · intro rest
    cases h : walk_ul rest with
    | error e => simp [walk_ul, process_yaml_ul, Except.map, h, Bind.bind, Except.bind]
    | ok l =>
      simp [walk_ul, process_yaml_ul, Except.map, h, Bind.bind, Except.bind, Pure.pure,
        Except.pure]
  · intro out m e rest h
    simp [walk_dl, h, Bind.bind, Except.bind]

/-- C5, witness: the amended theorem applied to a skipped invalid
manifest before one good manifest, and to the walk aborting at a
manifest missing the destination key. -/
theorem c5_parse_failure_handling_witness :
    walk_ul (ManifestFile.invalid ::
        [ManifestFile.parsed (Y.map [("destination", Y.map [("name", Y.str "E")])])]) =
      (walk_ul [ManifestFile.parsed
        (Y.map [("destination", Y.map [("name", Y.str "E")])])]).map
        (List.cons Option.none) ∧
    walk_dl "o" [ManifestFile.parsed (Y.map [])] = Except.error PErr.keyError :=
  ⟨c5_parse_failure_handling.1
      [ManifestFile.parsed (Y.map [("destination", Y.map [("name", Y.str "E")])])],
    c5_parse_failure_handling.2 "o" (ManifestFile.parsed (Y.map [])) PErr.keyError []
      rfl⟩

/-! Remote object store model (the Onedata REST surface consumed by
api_upload.py): a flat list of entries (parent folder id, child name,
fileId, content), plus a counter for fresh fileIds. A POST of a child
whose (parent, name) already exists is answered 400 with an "eexist"
body and leaves the store unchanged; otherwise 201 with a fresh id. -/

/-- One child entry of the remote store. -/
structure REntry where
  parent : String
  name : String
  fileId : Nat
  content : Nat
deriving DecidableEq

/-- Remote store state. -/
structure Remote where
  entries : List REntry
  nextId : Nat
deriving DecidableEq

/-- Whether a child named `name` exists under `parent`. -/
def Remote.hasChild (r : Remote) (parent name : String) : Bool :=
  r.entries.any (fun e => e.parent == parent && e.name == name)

/-- Model of `get_children(parent_id)`: the child entries under a
folder. -/
def get_children (r : Remote) (parent : String) : List REntry :=
  r.entries.filter (fun e => e.parent == parent)

/-- Model of `get_child_id(parent_id, name)` (api_upload.py lines
58-63): fileId of the first child with the given name. -/
def get_child_id (r : Remote) (parent name : String) : Option Nat :=
  ((get_children r parent).find? (fun e => e.name == name)).map (fun e => e.fileId)

/-- Substring scan helper: does the character list contain the
character run of "eexist" at some position. -/
def containsEexistAux : List Char → Bool
  | [] => false
  | c :: rest =>
    List.isPrefixOf ['e', 'e', 'x', 'i', 's', 't'] (c :: rest) || containsEexistAux rest

/-- The lowercased response body contains "eexist"
(`"eexist" in r.text.lower()`); the model's response bodies are
already lowercase. -/
def containsEexist (s : String) : Bool := containsEexistAux s.data

/-- Remote semantics of `POST .../children?name=X&type=DIR`: conflict
(400, body mentioning eexist) if the name is taken, else 201 with the
fresh fileId and the directory added. -/
def Remote.postDir (r : Remote) (parent name : String) :
    (Nat × String × Option Nat) × Remote :=
  if r.hasChild parent name then ((400, "posix error: eexist", none), r)
  else ((201, "", some r.nextId),
    ⟨⟨parent, name, r.nextId, 0⟩ :: r.entries, r.nextId + 1⟩)

/-- Model of `create_directory(parent_id, name)` (api_upload.py lines
66-88): empty names are skipped with `None`; a 201 response yields the
new fileId; a 400 response whose body mentions "eexist" falls back to
`get_child_id`; anything else yields `None`. -/
def create_directory (r : Remote) (parent name : String) : Option Nat × Remote :=
  if name = "" then (none, r)
  else
    match r.postDir parent name with
    | ((code, body, fid), r2) =>
      if code = 201 then (fid, r2)
      else if code = 400 ∧ containsEexist body = true then
        (get_child_id r2 parent name, r2)
      else (none, r2)

theorem containsEexist_posix : containsEexist "posix error: eexist" = true := by decide

theorem create_directory_conflict (r : Remote) (parent name : String)
    (hn : ¬ name = "") (hc : r.hasChild parent name = true) :
    create_directory r parent name = (get_child_id r parent name, r) := by
  unfold create_directory Remote.postDir
  rw [if_neg hn, if_pos hc]
  simp [containsEexist_posix]

theorem create_directory_fresh (r : Remote) (parent name : String)
    (hn : ¬ name = "") (hc : r.hasChild parent name = false) :
    create_directory r parent name =
      (some r.nextId, ⟨⟨parent, name, r.nextId, 0⟩ :: r.entries, r.nextId + 1⟩) := by
  unfold create_directory Remote.postDir
  rw [if_neg hn, if_neg (by simp [hc])]
  simp

/-- C6: `create_directory` is idempotent — calling it twice with the
same (parentId, name) returns the same fileId both times: the second
call's "already exists" conflict is resolved through the
`get_child_id` lookup, which finds the folder created (or found) by
the first call. -/
theorem c6_create_directory_idempotent (r : Remote) (parent name : String) :
    (create_directory (create_directory r parent name).2 parent name).1 =
      (create_directory r parent name).1 := by
  by_cases hn : name = ""
  · simp [create_directory, hn]
  · by_cases hc : r.hasChild parent name = true
    · rw [create_directory_conflict r parent name hn hc]
      have h2 : create_directory
          ((get_child_id r parent name, r) : Option Nat × Remote).2 parent name =
          (get_child_id r parent name, r) :=
        create_directory_conflict r parent name hn hc
      rw [h2]
    · have hc' : r.hasChild parent name = false := by
        revert hc; cases r.hasChild parent name <;> simp
      rw [create_directory_fresh r parent name hn hc']
      have hc2 : Remote.hasChild ⟨⟨parent, name, r.nextId, 0⟩ :: r.entries, r.nextId + 1⟩
          parent name = true := by
        simp [Remote.hasChild]
      have h2 : create_directory ((some r.nextId,
          (⟨⟨parent, name, r.nextId, 0⟩ :: r.entries, r.nextId + 1⟩ : Remote)) :
            Option Nat × Remote).2 parent name =
          (get_child_id ⟨⟨parent, name, r.nextId, 0⟩ :: r.entries, r.nextId + 1⟩ parent name,
            (⟨⟨parent, name, r.nextId, 0⟩ :: r.entries, r.nextId + 1⟩ : Remote)) :=
        create_directory_conflict _ parent name hn hc2
      rw [h2]
      show get_child_id ⟨⟨parent, name, r.nextId, 0⟩ :: r.entries, r.nextId + 1⟩
        parent name = some r.nextId
      simp [get_child_id, get_children, List.filter_cons, List.find?_cons]

/-- Remote semantics of `POST .../children?name=X` with a file body:
conflict (400, body mentioning eexist, store unchanged — no overwrite)
if the name is taken, else 201 with the file added under a fresh
fileId. -/
def Remote.postFile (r : Remote) (parent name : String) (content : Nat) :
    (Nat × String) × Remote :=
  if r.hasChild parent name then ((400, "posix error: eexist"), r)
  else ((201, ""), ⟨⟨parent, name, r.nextId, content⟩ :: r.entries, r.nextId + 1⟩)

/-- Response handling of `upload_file` (api_upload.py lines 120-135):
201 is success, 400 with an "eexist" body is success, anything else is
a reported failure (`False`); in every branch `os.remove(local_path)`
runs before returning. -/
def uploadFileResp (code : Nat) (body : String) (fs : FS) (localPath : String) :
    Bool × FS :=
  if code = 201 then (true, fsRemove fs localPath)
  else if code = 400 ∧ containsEexist body = true then (true, fsRemove fs localPath)
  else (false, fsRemove fs localPath)

/-- Model of `upload_file(parent_id, local_path, dest_name)`
(api_upload.py lines 96-135): returns `False` without side effects if
the local file is missing; otherwise POSTs the file content and
dispatches on the response via `uploadFileResp`. -/
def upload_file (r : Remote) (fs : FS) (parent localPath destName : String) :
    Bool × Remote × FS :=
  match fsLookup fs localPath with
  | none => (false, r, fs)
  | some content =>
    match r.postFile parent destName content with
    | ((code, body), r2) =>
      match uploadFileResp code body fs localPath with
      | (ok2, fs2) => (ok2, r2, fs2)

theorem uploadFileResp_fs (code : Nat) (body : String) (fs : FS) (lp : String) :
    (uploadFileResp code body fs lp).2 = fsRemove fs lp := by
  unfold uploadFileResp
  split_ifs <;> rfl

theorem upload_file_removes (r : Remote) (fs : FS) (parent lp dn : String) (c : Nat)
    (hlp : fsLookup fs lp = some c) :
    (upload_file r fs parent lp dn).2.2 = fsRemove fs lp := by
  unfold upload_file
  rw [hlp]
  rcases hpf : r.postFile parent dn c with ⟨⟨code, body⟩, r2⟩
  rcases huf : uploadFileResp code body fs lp with ⟨ok2, fs2⟩
  simp only [hpf, huf]
  have h := uploadFileResp_fs code body fs lp
  rw [huf] at h
  exact h

/-- C7: `upload_file` treats an "already exists" conflict as success
and leaves the remote store unchanged (no overwrite), and every other
non-success response code yields the reported failure value `False`
rather than an exception (the model's response handler is a total
function). -/
theorem c7_upload_conflict_success (r : Remote) (fs : FS)
    (parent lp dn : String) (c : Nat) (hlp : fsLookup fs lp = some c)
    (hc : r.hasChild parent dn = true) :
    ((upload_file r fs parent lp dn).1 = true ∧
      (upload_file r fs parent lp dn).2.1 = r) ∧
    (∀ (code : Nat) (body : String) (fs2 : FS) (lp2 : String),
        code ≠ 201 → ¬(code = 400 ∧ containsEexist body = true) →
        (uploadFileResp code body fs2 lp2).1 = false) := by
  constructor
  · unfold upload_file
    rw [hlp]
    simp [Remote.postFile, hc, uploadFileResp, containsEexist_posix]
  · intro code body fs2 lp2 h1 h2
    unfold uploadFileResp
    rw [if_neg h1, if_neg h2]

/-- C7, witness: a conflicting upload at a store that already holds
the name reports success without touching the store, and a 500
response reports failure. -/
theorem c7_upload_conflict_success_witness :
    ((upload_file ⟨[⟨"p", "f", 1, 9⟩], 2⟩ [("l", 5)] "p" "l" "f").1 = true ∧
      (upload_file ⟨[⟨"p", "f", 1, 9⟩], 2⟩ [("l", 5)] "p" "l" "f").2.1 =
        (⟨[⟨"p", "f", 1, 9⟩], 2⟩ : Remote)) ∧
    (uploadFileResp 500 "server error" [] "x").1 = false :=
  ⟨(c7_upload_conflict_success ⟨[⟨"p", "f", 1, 9⟩], 2⟩ [("l", 5)] "p" "l" "f" 5
      (by decide) (by decide)).1,
    (c7_upload_conflict_success ⟨[⟨"p", "f", 1, 9⟩], 2⟩ [("l", 5)] "p" "l" "f" 5
      (by decide) (by decide)).2 500 "server error" [] "x" (by decide) (by decide)⟩

/-- Python `os.remove`: raises `FileNotFoundError` when the path does
not exist. -/
def os_remove (fs : FS) (p : String) : Except Unit FS :=
  match fsLookup fs p with
  | none => .error ()
  | some _ => .ok (fsRemove fs p)

/-- The upload-and-cleanup step at the end of `handle_file_upload`
(api_upload.py lines 207-211): call `upload_file`, and on a `True`
result call `os.remove(local_file)` a second time. -/
def handle_upload_step (r : Remote) (fs : FS) (parent localFile filename : String) :
    Except Unit (Remote × FS) :=
  match upload_file r fs parent localFile filename with
  | (ok2, r2, fs2) =>
    if ok2 then
      match os_remove fs2 localFile with
      | .error e => .error e
      | .ok fs3 => .ok (r2, fs3)
    else .ok (r2, fs2)

/-- C10: when the local file exists, `upload_file` removes it before
returning in every outcome branch (success, conflict and failure all
call `os.remove(local_path)`); consequently on the success path the
caller's second `os.remove(local_file)` targets a path that no longer
exists, which the model reports as a raised `FileNotFoundError`. -/
theorem c10_local_file_removed :
    (∀ (r : Remote) (fs : FS) (parent lp dn : String) (c : Nat),
        fsLookup fs lp = some c →
        (upload_file r fs parent lp dn).2.2 = fsRemove fs lp) ∧
    (∀ (r : Remote) (fs : FS) (parent lp dn : String) (c : Nat),
        fsLookup fs lp = some c →
        (upload_file r fs parent lp dn).1 = true →
        handle_upload_step r fs parent lp dn = .error ()) := by
  constructor
  · intro r fs parent lp dn c hlp
    exact upload_file_removes r fs parent lp dn c hlp
  · intro r fs parent lp dn c hlp hok
    have hfs : (upload_file r fs parent lp dn).2.2 = fsRemove fs lp :=
      upload_file_removes r fs parent lp dn c hlp
    rcases hu : upload_file r fs parent lp dn with ⟨ok2, r2, fs2⟩
    rw [hu] at hok hfs
    simp only at hok hfs
    unfold handle_upload_step
    rw [hu]
    have hos : os_remove fs2 lp = .error () := by
      unfold os_remove
      rw [hfs, fsLookup_fsRemove_self]
    simp only [hok, if_true, hos]

/-- C10, witness: the theorem applied to a fresh store and a local
file of four bytes: the upload succeeds, the local file is gone, and
the caller's second removal raises. -/
theorem c10_local_file_removed_witness :
    (upload_file ⟨[], 0⟩ [("l", 4)] "p" "l" "f").2.2 = fsRemove [("l", 4)] "l" ∧
    handle_upload_step ⟨[], 0⟩ [("l", 4)] "p" "l" "f" = .error () :=
  ⟨c10_local_file_removed.1 ⟨[], 0⟩ [("l", 4)] "p" "l" "f" 4 (by decide),
    c10_local_file_removed.2 ⟨[], 0⟩ [("l", 4)] "p" "l" "f" 4 (by decide) (by decide)⟩

/-! Summary-report model (data-library-download.py lines 153-181):
the report file as a list of lines. -/

/-- One line of the summary report. -/
inductive SummaryLine where
  | header : SummaryLine
  | row (path url status : String) (size : Nat) : SummaryLine
  | overall (total : Nat) : SummaryLine
deriving DecidableEq

/-- The text of each line as written to the file (tab-separated). -/
def renderLine : SummaryLine → String
  | .header => "Path\tURL\tStatus\tFile Size"
  | .row p u s n => p ++ "\t" ++ u ++ "\t" ++ s ++ "\t" ++ toString n
  | .overall n => "Overall\t\t\t" ++ toString n

/-- Model of `write_summary_header`: the freshly truncated report
holding only the header line. -/
def write_summary_header : List SummaryLine := [.header]

/-- Model of `update_urls_file`: append one data row. -/
def update_urls_file (lines : List SummaryLine) (path url status : String)
    (size : Nat) : List SummaryLine :=
  lines ++ [.row path url status size]

/-- The `int(file_size_str)` parse of a line's fourth tab-separated
field: data and overall rows carry a number, the header's fourth field
("File Size") raises `ValueError`. -/
def lineSizeField : SummaryLine → Except Unit Nat
  | .header => .error ()
  | .row _ _ _ n => .ok n
  | .overall n => .ok n

/-- The summing loop of `calculate_overall_size` over the lines after
the first, stopping at the first unparsable size field. -/
def sumSizes : List SummaryLine → Except Unit Nat
  | [] => .ok 0
  | l :: rest => do
    let n ← lineSizeField l
    let m ← sumSizes rest
    pure (n + m)

/-- Model of `calculate_overall_size` (data-library-download.py lines
170-181): skip the first line (`next(file)`, `StopIteration` on an
empty file), sum the fourth field of every remaining line, then seek
to position 0 and write the Overall line followed by the previously
read content — i.e. the Overall line is prepended in front of the
whole file, header included. -/
def calculate_overall_size (lines : List SummaryLine) :
    Except Unit (List SummaryLine) :=
  match lines with
  | [] => .error ()
  | first :: rest =>
    match sumSizes rest with
    | .error e => .error e
    | .ok total => .ok (.overall total :: first :: rest)

/-- Packaging of one processed item's row fields. -/
def toRow (q : String × String × String × Nat) : SummaryLine :=
  .row q.1 q.2.1 q.2.2.1 q.2.2.2

theorem foldl_update_urls_file (rows : List (String × String × String × Nat)) :
    ∀ (acc : List SummaryLine),
    rows.foldl (fun acc q => update_urls_file acc q.1 q.2.1 q.2.2.1 q.2.2.2) acc =
      acc ++ rows.map toRow := by
  induction rows with
  | nil => intro acc; simp
  | cons q rows ih =>
    intro acc
    simp only [List.foldl_cons, List.map_cons]
    rw [ih (update_urls_file acc q.1 q.2.1 q.2.2.1 q.2.2.2)]
    simp [update_urls_file, toRow]

theorem sumSizes_rows (rows : List (String × String × String × Nat)) :
    sumSizes (rows.map toRow) = .ok ((rows.map (fun q => q.2.2.2)).sum) := by
  induction rows with
  | nil => rfl
  | cons q rows ih =>
    simp only [List.map_cons, sumSizes, lineSizeField, toRow, List.sum_cons, ih,
      Bind.bind, Except.bind, Pure.pure, Except.pure]

/-- C8, counterexample: after `calculate_overall_size` the first line
of the report is the synthetic Overall row and the header is only the
second line, because the function seeks to position 0 and writes the
Overall line in front of the previously read content. This
contradicts "whose first line is the header ... first data row after
the header holds the aggregate byte total". -/
theorem c8_counterexample :
    calculate_overall_size
        (update_urls_file (update_urls_file write_summary_header "p1" "u1" "s1" 10)
          "p2" "u2" "s2" 20) =
      Except.ok [SummaryLine.overall 30, SummaryLine.header,
        SummaryLine.row "p1" "u1" "s1" 10, SummaryLine.row "p2" "u2" "s2" 20] ∧
    SummaryLine.overall 30 ≠ SummaryLine.header := by
  exact ⟨rfl, by decide⟩

/-- C8, amended: the report is tab-separated with header line
`Path\tURL\tStatus\tFile Size` and one row per processed item, and
after `calculate_overall_size` the aggregate byte total appears under
the synthetic `Overall` path as the FIRST line of the file, in front
of the header, with the header second and the data rows following in
order. -/
theorem c8_summary_layout (rows : List (String × String × String × Nat)) :
    renderLine SummaryLine.header = "Path\tURL\tStatus\tFile Size" ∧
    calculate_overall_size
        (rows.foldl (fun acc q => update_urls_file acc q.1 q.2.1 q.2.2.1 q.2.2.2)
          write_summary_header) =
      Except.ok (SummaryLine.overall ((rows.map (fun q => q.2.2.2)).sum) ::
        SummaryLine.header :: rows.map toRow) := by
  refine ⟨rfl, ?_⟩
  rw [foldl_update_urls_file rows write_summary_header]
  show calculate_overall_size (SummaryLine.header :: rows.map toRow) = _
  simp [calculate_overall_size, sumSizes_rows rows]

end GtnDownloader
